import Mathlib

/-!
Shallow embedding of the TaskManagementSystem backend routes
(`server/routes/tasks.js` and the users route) over an explicit store state.

Identifiers (Mongo ObjectIds) are modelled as `String`. Request body fields
arrive as strings; an absent field is the empty string, matching the JS
falsiness test (`status || 'pending'`) and express-validator's
`.not().isEmpty()` checks. The database is a list of user records and a list
of task records; the uploads directory is the list of stored file paths.
-/

namespace TMS

/-- A stored user record (`server/models/User.js` fields used by the routes). -/
structure User where
  id : String
  name : String
  email : String
  password : String
  role : String
deriving Repr, DecidableEq

/-- A user as serialised by `.select('-password')`: every field but the
password hash. -/
structure PublicUser where
  id : String
  name : String
  email : String
  role : String
deriving Repr, DecidableEq

/-- An attachment subdocument of a task. `docId` is the subdocument `_id`
(assigned by the storage layer on save); the remaining fields are copied
from the uploaded file by the route handlers. -/
structure Document where
  docId : String
  filename : String
  originalName : String
  path : String
  size : Nat
  mimetype : String
deriving Repr, DecidableEq

/-- A stored task record (`server/models/Task.js` fields used by the routes). -/
structure Task where
  id : String
  title : String
  description : String
  status : String
  priority : String
  dueDate : String
  assignedTo : String
  createdBy : String
  documents : List Document
  createdAt : Nat
deriving Repr, DecidableEq

/-- The persistent state: the two database collections and the set of file
paths present in the uploads content store. -/
structure State where
  users : List User
  tasks : List Task
  files : List String
deriving Repr, DecidableEq

/-- HTTP outcome of a handler: `ok` (200 with a JSON body), `badRequest`
(400, ValidationError), `forbidden` (403), `notFound` (404),
`serverError` (500, an exception reached the catch block). -/
inductive Resp (α : Type) where
  | ok (body : α)
  | badRequest
  | forbidden
  | notFound
  | serverError
deriving Repr, DecidableEq

/-- Body of a task create/update request. Empty string means the field is
absent (JS `undefined` is falsy exactly like `''`). -/
structure TaskBody where
  title : String
  description : String
  status : String
  priority : String
  dueDate : String
  assignedTo : String
deriving Repr, DecidableEq

/-- Body of a user update request. -/
structure UserBody where
  name : String
  email : String
  role : String
deriving Repr, DecidableEq

/-- Embeds `Task.findById` : first task whose id matches. -/
def findTask (s : State) (tid : String) : Option Task :=
  s.tasks.find? (fun t => t.id == tid)

/-- Embeds `User.findById` : first user whose id matches. -/
def findUser (s : State) (uid : String) : Option User :=
  s.users.find? (fun x => x.id == uid)

/-- Embeds `task.documents.id(docId)` : first attachment whose subdocument id
matches. -/
def findDoc (t : Task) (docId : String) : Option Document :=
  t.documents.find? (fun d => d.docId == docId)

/-- The access-control predicate of the spec:
`canAct(user, task) = user.role == admin OR task.assignedTo == user.id`.
The routes test its negation:
`task.assignedTo.toString() !== req.user.id && req.user.role !== 'admin'`. -/
def canAct (u : User) (t : Task) : Bool :=
  u.role == "admin" || t.assignedTo == u.id

/-- The express-validator chain shared by task create and update:
title, description, assignedTo and dueDate must each be non-empty. -/
def taskBodyValid (b : TaskBody) : Bool :=
  b.title != "" && b.description != "" && b.assignedTo != "" && b.dueDate != ""

/-- Whether a user with the given id exists (`User.findById(...)` non-null). -/
def userExists (s : State) (uid : String) : Bool :=
  (findUser s uid).isSome

/-- The multer upload middleware has already written every uploaded file to
disk by the time the route handler runs: add their paths to the content
store. -/
def writeUploads (s : State) (files : List Document) : State :=
  { s with files := s.files ++ files.map (fun d => d.path) }

/-- Embeds `fs.unlinkSync(doc.path)` guarded by `fs.existsSync`: removing an absent
path is a no-op, so both branches are the filter. -/
def removePath (fs : List String) (p : String) : List String :=
  fs.filter (fun q => q != p)

/-- The file-deletion loop of task delete: unlink each attachment's path. -/
def removeFiles (fs : List String) (docs : List Document) : List String :=
  docs.foldl (fun acc d => removePath acc d.path) fs

/-- Handler for `GET /api/tasks` : the authenticated user's tasks
(`Task.find({ assignedTo: req.user.id })`, newest first). -/
def getTasks (s : State) (u : User) : Resp (List Task) :=
  Resp.ok (((s.tasks.filter (fun t => t.assignedTo == u.id)).mergeSort
    (fun a b => b.createdAt ≤ a.createdAt)))

/-- Handler for `GET /api/tasks/all` : every task, admin only. -/
def getAllTasks (s : State) (u : User) : Resp (List Task) :=
  if u.role != "admin" then Resp.forbidden
  else Resp.ok (s.tasks.mergeSort (fun a b => b.createdAt ≤ a.createdAt))

/-- Handler for `GET /api/tasks/:id`. This route (alone among the four
single-task routes) runs `.populate('assignedTo', ...)` and then
dereferences `task.assignedTo._id.toString()`: when the referenced user
record no longer exists, populate yields `null`, the dereference throws a
TypeError whose `kind` is not `ObjectId`, and the catch block answers 500
— for every requester. When the assignee resolves, the guard compares the
populated record's id. -/
def getTaskById (s : State) (u : User) (tid : String) : Resp Task :=
  match findTask s tid with
  | none => Resp.notFound
  | some task =>
    match findUser s task.assignedTo with
    | none => Resp.serverError
    | some assignee =>
      if assignee.id != u.id && u.role != "admin" then Resp.forbidden
      else Resp.ok task

/-- Handler for `POST /api/tasks`. `files` are the documents produced from
`req.files` (the handler copies filename/originalName/path/size/mimetype;
the subdocument ids are assigned on save). `nid` is the id the store
assigns to the new task, `now` its creation timestamp. -/
def createTask (s₀ : State) (u : User) (b : TaskBody) (files : List Document)
    (nid : String) (now : Nat) : Resp Task × State :=
  let s := writeUploads s₀ files
  if !taskBodyValid b then (Resp.badRequest, s)
  else match findUser s b.assignedTo with
  | none => (Resp.badRequest, s)
  | some _ =>
    let task : Task :=
      { id := nid
        title := b.title
        description := b.description
        status := if b.status == "" then "pending" else b.status
        priority := if b.priority == "" then "medium" else b.priority
        dueDate := b.dueDate
        assignedTo := b.assignedTo
        createdBy := u.id
        documents := files
        createdAt := now }
    (Resp.ok task, { s with tasks := s.tasks ++ [task] })

/-- Handler for `PUT /api/tasks/:id`. Validation runs first, then lookup, then the
access check, then the assignee-existence check; the new document list is
`[...task.documents, ...newDocuments].slice(0, 3)`. -/
def updateTask (s₀ : State) (u : User) (tid : String) (b : TaskBody)
    (files : List Document) : Resp Task × State :=
  let s := writeUploads s₀ files
  if !taskBodyValid b then (Resp.badRequest, s)
  else match findTask s tid with
  | none => (Resp.notFound, s)
  | some task =>
    if task.assignedTo != u.id && u.role != "admin" then (Resp.forbidden, s)
    else match findUser s b.assignedTo with
    | none => (Resp.badRequest, s)
    | some _ =>
      let allDocuments := (task.documents ++ files).take 3
      let task' : Task :=
        { task with
          title := b.title
          description := b.description
          status := b.status
          priority := b.priority
          dueDate := b.dueDate
          assignedTo := b.assignedTo
          documents := allDocuments }
      (Resp.ok task',
        { s with tasks := s.tasks.map (fun t => if t.id == tid then task' else t) })

/-- Handler for `DELETE /api/tasks/:id` : unlink every attachment's file, then remove
the record. -/
def deleteTask (s : State) (u : User) (tid : String) : Resp Unit × State :=
  match findTask s tid with
  | none => (Resp.notFound, s)
  | some task =>
    if task.assignedTo != u.id && u.role != "admin" then (Resp.forbidden, s)
    else
      (Resp.ok (),
        { s with
          tasks := s.tasks.filter (fun t => t.id != tid)
          files := removeFiles s.files task.documents })

/-- Handler for `DELETE /api/tasks/:id/documents/:docId` : unlink that attachment's
file, `task.documents.pull(docId)`, save. -/
def deleteDocument (s : State) (u : User) (tid docId : String) :
    Resp Unit × State :=
  match findTask s tid with
  | none => (Resp.notFound, s)
  | some task =>
    if task.assignedTo != u.id && u.role != "admin" then (Resp.forbidden, s)
    else match findDoc task docId with
    | none => (Resp.notFound, s)
    | some doc =>
      let task' := { task with
        documents := task.documents.filter (fun d => d.docId != docId) }
      (Resp.ok (),
        { s with
          tasks := s.tasks.map (fun t => if t.id == tid then task' else t)
          files := removePath s.files doc.path })

/-- Embeds `.select('-password')` : drop the password hash, keep the rest. -/
def stripPassword (u : User) : PublicUser :=
  { id := u.id, name := u.name, email := u.email, role := u.role }

/-- Handler for `GET /api/users` : every user, password excluded. -/
def getUsers (s : State) : Resp (List PublicUser) :=
  Resp.ok (s.users.map stripPassword)

/-- Handler for `GET /api/users/:id`. -/
def getUserById (s : State) (uid : String) : Resp PublicUser :=
  match findUser s uid with
  | none => Resp.notFound
  | some u => Resp.ok (stripPassword u)

/-- Handler for `PUT /api/users/:id`. `emailValid` is the verdict of express-validator's
`isEmail` check (a library predicate, passed in as an input). The handler
never consults `requester` beyond the authentication gate: there is no role
or ownership check. `if (role) user.role = role` keeps the old role when
the field is absent. -/
def updateUser (s : State) (requester : User) (uid : String) (b : UserBody)
    (emailValid : Bool) : Resp PublicUser × State :=
  if b.name == "" || !emailValid then (Resp.badRequest, s)
  else match findUser s uid with
  | none => (Resp.notFound, s)
  | some user =>
    if b.email != user.email && (s.users.any (fun x => x.email == b.email)) then
      (Resp.badRequest, s)
    else
      let user' : User :=
        { user with
          name := b.name
          email := b.email
          role := if b.role != "" then b.role else user.role }
      (Resp.ok (stripPassword user'),
        { s with users := s.users.map (fun x => if x.id == uid then user' else x) })

/-- Handler for `DELETE /api/users/:id` : remove that user record; nothing else is
touched. -/
def deleteUser (s : State) (requester : User) (uid : String) :
    Resp Unit × State :=
  match findUser s uid with
  | none => (Resp.notFound, s)
  | some _ =>
    (Resp.ok (), { s with users := s.users.filter (fun x => x.id != uid) })

/-! ### Sample data for concrete witnesses -/

/-- A sample stored attachment. -/
def docA : Document :=
  { docId := "d1", filename := "f1.pdf", originalName := "spec.pdf",
    path := "/uploads/f1.pdf", size := 10, mimetype := "application/pdf" }

/-- A second sample stored attachment. -/
def docB : Document :=
  { docId := "d2", filename := "f2.png", originalName := "pic.png",
    path := "/uploads/f2.png", size := 20, mimetype := "image/png" }

/-- A sample freshly-uploaded attachment. -/
def docC : Document :=
  { docId := "d3", filename := "f3.doc", originalName := "notes.doc",
    path := "/uploads/f3.doc", size := 30, mimetype := "application/msword" }

/-- Sample admin user. -/
def alice : User :=
  { id := "u1", name := "Alice", email := "alice@example.com",
    password := "hashA", role := "admin" }

/-- Sample non-admin user, assignee of the sample task. -/
def bob : User :=
  { id := "u2", name := "Bob", email := "bob@example.com",
    password := "hashB", role := "user" }

/-- Sample non-admin user unrelated to the sample task. -/
def carol : User :=
  { id := "u3", name := "Carol", email := "carol@example.com",
    password := "hashC", role := "user" }

/-- Sample task: assigned to `bob`, created by `alice`, two attachments. -/
def task1 : Task :=
  { id := "t1", title := "Write report", description := "Quarterly report",
    status := "pending", priority := "medium", dueDate := "2025-01-31",
    assignedTo := "u2", createdBy := "u1", documents := [docA, docB],
    createdAt := 5 }

/-- Sample store state. -/
def st : State :=
  { users := [alice, bob, carol], tasks := [task1],
    files := ["/uploads/f1.pdf", "/uploads/f2.png"] }

/-- A fully-populated, valid task body. -/
def body1 : TaskBody :=
  { title := "Write report v2", description := "Updated report",
    status := "in-progress", priority := "high", dueDate := "2025-02-15",
    assignedTo := "u2" }

/-- The sample store after the assignee `bob` has been deleted (exactly the
state user deletion produces): `task1.assignedTo = "u2"` dangles. -/
def stDangling : State :=
  { users := [alice, carol], tasks := [task1],
    files := ["/uploads/f1.pdf", "/uploads/f2.png"] }

/-- A valid create body with status and priority absent, assigned to the
existing user `u2`. -/
def bodyDefaults : TaskBody :=
  { title := "Untriaged task", description := "Status and priority omitted",
    status := "", priority := "", dueDate := "2025-03-01",
    assignedTo := "u2" }

/-- A create body missing its required title. -/
def bodyNoTitle : TaskBody :=
  { bodyDefaults with title := "" }

/-- A valid task body whose assignee id matches no stored user. -/
def bodyGhost : TaskBody :=
  { title := "Ghost", description := "No such assignee",
    status := "", priority := "", dueDate := "2025-03-01",
    assignedTo := "u9" }

/-- A user-update body keeping `carol`'s email and granting the admin
role. -/
def userBodyAdmin : UserBody :=
  { name := "Carol", email := "carol@example.com", role := "admin" }

/-! ### Helper lemmas -/

/-- The guard the routes test is exactly the negation of `canAct`. -/
theorem authCond_eq_not_canAct (u : User) (t : Task) :
    (t.assignedTo != u.id && u.role != "admin") = !canAct u t := by
  simp only [canAct, bne, Bool.not_or]
  cases u.role == "admin" <;> cases t.assignedTo == u.id <;> rfl

/-- Adding uploaded files to the content store does not change the task
collection, so task lookup is unaffected. -/
theorem findTask_writeUploads (s : State) (files : List Document)
    (tid : String) : findTask (writeUploads s files) tid = findTask s tid := rfl

/-- Uploading files leaves the task collection unchanged. -/
theorem writeUploads_tasks (s : State) (files : List Document) :
    (writeUploads s files).tasks = s.tasks := rfl

/-- Uploading files leaves the user collection unchanged; user lookup is
unaffected. -/
theorem findUser_writeUploads (s : State) (files : List Document)
    (uid : String) : findUser (writeUploads s files) uid = findUser s uid := rfl

/-- When `canAct` fails, neither disjunct holds. -/
theorem not_canAct_split {u : User} {t : Task} (hca : canAct u t = false) :
    ¬t.assignedTo = u.id ∧ ¬u.role = "admin" := by
  constructor <;> intro h <;> simp [canAct, h] at hca

/-- When `canAct` holds, the route's guard condition is refuted. -/
theorem canAct_split {u : User} {t : Task} (hca : canAct u t = true) :
    ¬(¬t.assignedTo = u.id ∧ ¬u.role = "admin") := by
  rintro ⟨h1, h2⟩
  simp [canAct] at hca
  rcases hca with h | h
  · exact h2 h
  · exact h1 h

/-- On a dangling assignee the read route throws at the populate
dereference and answers 500, whoever the requester is. -/
theorem getTaskById_dangling (s : State) (v : User) (tid : String)
    (task : Task)
    (hfind : findTask s tid = some task)
    (hfu : findUser s task.assignedTo = none) :
    getTaskById s v tid = Resp.serverError := by
  simp [getTaskById, hfind, hfu]

/-- When the assignee record resolves, the read route reduces to the
`canAct` guard (the populated record's id equals the stored reference by
which it was found). -/
theorem getTaskById_guard (s : State) (u : User) (tid : String)
    (task : Task) (a : User)
    (hfind : findTask s tid = some task)
    (hfu : findUser s task.assignedTo = some a) :
    getTaskById s u tid =
      if canAct u task then Resp.ok task else Resp.forbidden := by
  have hfu' : s.users.find? (fun x => x.id == task.assignedTo) = some a := hfu
  have ha : a.id = task.assignedTo := by
    have h := List.find?_some hfu'
    simpa using h
  cases hca : canAct u task with
  | false =>
    obtain ⟨h1, h2⟩ := not_canAct_split hca
    simp [getTaskById, hfind, hfu, ha, h1, h2]
  | true =>
    have hpos := canAct_split hca
    simp only [getTaskById, hfind, hfu, ha, if_pos]
    simp [hpos]

/-! ### C1 -/

/-- C1 counterexample: in `stDangling` (assignee deleted, exactly the state
C8's user delete produces) `task1` exists, yet the read route answers 500
for every requester: admin `alice` satisfies `canAct` but does not get past
authorization, and `carol` fails `canAct` but is not answered Forbidden.
The claimed forbidden-iff-`canAct` behaviour is therefore not uniform
across the four single-task operations. -/
theorem c1_canAct_gates_single_task_ops_counterexample :
    findTask stDangling "t1" = some task1
    ∧ canAct alice task1 = true
    ∧ getTaskById stDangling alice "t1" = Resp.serverError
    ∧ getTaskById stDangling alice "t1" ≠ Resp.ok task1
    ∧ canAct carol task1 = false
    ∧ getTaskById stDangling carol "t1" ≠ Resp.forbidden := by decide

/-- C1 (amended): for update, task delete and attachment delete, when the
task exists (and, for update, the body passes validation, which the route
checks before anything else) the operation gets past the authorization
step exactly when `canAct u task` holds, and when it does not hold the
response is Forbidden with the task collection unchanged. For read by id
the same holds only when the task's assignee record still exists; when the
assignee reference dangles, the populate dereference throws and the read
route answers 500 for every requester. -/
theorem c1_canAct_gates_single_task_ops (s : State) (u : User)
    (tid docId : String) (task : Task) (b : TaskBody) (files : List Document)
    (hfind : findTask s tid = some task)
    (hb : taskBodyValid b = true) :
    ((∃ a, findUser s task.assignedTo = some a) →
      (getTaskById s u tid ≠ Resp.forbidden ↔ canAct u task = true))
    ∧ (findUser s task.assignedTo = none →
      ∀ v : User, getTaskById s v tid = Resp.serverError)
    ∧ ((updateTask s u tid b files).1 ≠ Resp.forbidden ↔ canAct u task = true)
    ∧ ((deleteTask s u tid).1 ≠ Resp.forbidden ↔ canAct u task = true)
    ∧ ((deleteDocument s u tid docId).1 ≠ Resp.forbidden ↔ canAct u task = true)
    ∧ (canAct u task = false →
        ((∃ a, findUser s task.assignedTo = some a) →
          getTaskById s u tid = Resp.forbidden)
        ∧ updateTask s u tid b files = (Resp.forbidden, writeUploads s files)
        ∧ (updateTask s u tid b files).2.tasks = s.tasks
        ∧ deleteTask s u tid = (Resp.forbidden, s)
        ∧ deleteDocument s u tid docId = (Resp.forbidden, s)) := by
  have hrest :
      ((updateTask s u tid b files).1 ≠ Resp.forbidden ↔ canAct u task = true)
      ∧ ((deleteTask s u tid).1 ≠ Resp.forbidden ↔ canAct u task = true)
      ∧ ((deleteDocument s u tid docId).1 ≠ Resp.forbidden ↔
          canAct u task = true)
      ∧ (canAct u task = false →
          updateTask s u tid b files = (Resp.forbidden, writeUploads s files)
          ∧ deleteTask s u tid = (Resp.forbidden, s)
          ∧ deleteDocument s u tid docId = (Resp.forbidden, s)) := by
    cases hca : canAct u task with
    | false =>
      obtain ⟨h1, h2⟩ := not_canAct_split hca
      refine ⟨?_, ?_, ?_, fun _ => ⟨?_, ?_, ?_⟩⟩ <;>
        simp [updateTask, deleteTask, deleteDocument,
          findTask_writeUploads, hfind, hb, h1, h2]
    | true =>
      have hpos := canAct_split hca
      refine ⟨?_, ?_, ?_, fun hcontra => by simp at hcontra⟩
      · cases hfu : findUser s b.assignedTo <;>
          simp [updateTask, findTask_writeUploads, findUser_writeUploads,
            hfind, hb, hpos, hfu]
      · simp [deleteTask, hfind, hpos]
      · cases hfd : findDoc task docId <;>
          simp [deleteDocument, hfind, hpos, hfd]
  refine ⟨?_, ?_, hrest.1, hrest.2.1, hrest.2.2.1, ?_⟩
  · rintro ⟨a, hfu⟩
    rw [getTaskById_guard s u tid task a hfind hfu]
    cases hca : canAct u task <;> simp
  · intro hfu v
    exact getTaskById_dangling s v tid task hfind hfu
  · intro hca
    refine ⟨?_, (hrest.2.2.2 hca).1, ?_, (hrest.2.2.2 hca).2.1,
      (hrest.2.2.2 hca).2.2⟩
    · rintro ⟨a, hfu⟩
      rw [getTaskById_guard s u tid task a hfind hfu, hca]
      simp
    · rw [(hrest.2.2.2 hca).1]
      exact writeUploads_tasks s files

/-- C1 witness: concrete instantiation at the sample store (where the
assignee `bob` exists), with `carol` (non-admin, not the assignee) as the
requester. -/
theorem c1_canAct_gates_single_task_ops_witness :
    findTask st "t1" = some task1 ∧ taskBodyValid body1 = true ∧
    (((∃ a, findUser st task1.assignedTo = some a) →
      (getTaskById st carol "t1" ≠ Resp.forbidden ↔ canAct carol task1 = true))
    ∧ (findUser st task1.assignedTo = none →
      ∀ v : User, getTaskById st v "t1" = Resp.serverError)
    ∧ ((updateTask st carol "t1" body1 [docC]).1 ≠ Resp.forbidden ↔
        canAct carol task1 = true)
    ∧ ((deleteTask st carol "t1").1 ≠ Resp.forbidden ↔
        canAct carol task1 = true)
    ∧ ((deleteDocument st carol "t1" "d1").1 ≠ Resp.forbidden ↔
        canAct carol task1 = true)
    ∧ (canAct carol task1 = false →
        ((∃ a, findUser st task1.assignedTo = some a) →
          getTaskById st carol "t1" = Resp.forbidden)
        ∧ updateTask st carol "t1" body1 [docC] =
            (Resp.forbidden, writeUploads st [docC])
        ∧ (updateTask st carol "t1" body1 [docC]).2.tasks = st.tasks
        ∧ deleteTask st carol "t1" = (Resp.forbidden, st)
        ∧ deleteDocument st carol "t1" "d1" = (Resp.forbidden, st))) :=
  ⟨rfl, rfl,
    c1_canAct_gates_single_task_ops st carol "t1" "d1" task1 body1 [docC]
      rfl rfl⟩

/-! ### C2 -/

/-- C2: a non-admin request to `GET /api/tasks/all` is Forbidden and carries
no task data; an admin request returns every task in the store (the response
list is a permutation of the task collection — the route only re-orders by
creation time). -/
theorem c2_all_tasks_admin_only (s : State) (u : User) :
    (u.role ≠ "admin" → getAllTasks s u = Resp.forbidden)
    ∧ (u.role = "admin" → ∃ l, getAllTasks s u = Resp.ok l
        ∧ List.Perm l s.tasks) := by
  constructor
  · intro h
    simp [getAllTasks, h]
  · intro h
    have hok : getAllTasks s u =
        Resp.ok (s.tasks.mergeSort (fun a b => b.createdAt ≤ a.createdAt)) := by
      simp [getAllTasks, h]
    exact ⟨_, hok, List.mergeSort_perm s.tasks _⟩

/-- C2 witness: `bob` (role `user`) is refused; `alice` (admin) receives a
permutation of the whole task collection. -/
theorem c2_all_tasks_admin_only_witness :
    getAllTasks st bob = Resp.forbidden
    ∧ ∃ l, getAllTasks st alice = Resp.ok l ∧ List.Perm l st.tasks :=
  ⟨(c2_all_tasks_admin_only st bob).1 (by decide),
   (c2_all_tasks_admin_only st alice).2 rfl⟩

/-! ### C4 -/

/-- C4: the user-update route performs no admin or ownership check — its
outcome is literally independent of the requesting user — and a request
carrying a non-empty role field (passing the name/email validation, here
with the target's own email so the uniqueness check is moot) sets the
target's stored role to the supplied value. -/
theorem c4_any_requester_can_set_role (s : State) (r1 r2 : User)
    (uid : String) (b : UserBody) (target : User)
    (hfind : findUser s uid = some target)
    (hname : b.name ≠ "")
    (hemail : b.email = target.email)
    (hrole : b.role ≠ "") :
    updateUser s r1 uid b true = updateUser s r2 uid b true
    ∧ (∃ pu, (updateUser s r1 uid b true).1 = Resp.ok pu ∧ pu.role = b.role)
    ∧ (∀ x ∈ (updateUser s r1 uid b true).2.users,
        x.id = uid → x.role = b.role) := by
  have h1 : (b.name == "") = false := by simp [hname]
  have h2 : (b.email != target.email) = false := by simp [hemail]
  have h3 : (b.role != "") = true := by simp [hrole]
  have key : updateUser s r1 uid b true =
      (Resp.ok { id := target.id, name := b.name, email := b.email,
                 role := b.role },
       { s with users := s.users.map (fun x => if x.id == uid then
           { target with name := b.name, email := b.email, role := b.role }
           else x) }) := by
    simp [updateUser, hfind, h1, h2, h3, stripPassword]
  refine ⟨rfl, ⟨_, by rw [key], rfl⟩, ?_⟩
  rw [key]
  intro x hx hid
  simp only [List.mem_map] at hx
  obtain ⟨a, _, rfl⟩ := hx
  by_cases hc : a.id = uid
  · simp [hc]
  · simp only [show (a.id == uid) = false by simp [hc], if_false] at hid ⊢
    exact absurd hid hc

/-- C4 witness: `bob` (an ordinary user) grants `carol` the admin role. -/
theorem c4_any_requester_can_set_role_witness :
    findUser st "u3" = some carol
    ∧ ((userBodyAdmin.name ≠ "") ∧ userBodyAdmin.email = carol.email
        ∧ userBodyAdmin.role ≠ "")
    ∧ (updateUser st bob "u3" userBodyAdmin true =
        updateUser st alice "u3" userBodyAdmin true
      ∧ (∃ pu, (updateUser st bob "u3" userBodyAdmin true).1 = Resp.ok pu
          ∧ pu.role = userBodyAdmin.role)
      ∧ (∀ x ∈ (updateUser st bob "u3" userBodyAdmin true).2.users,
          x.id = "u3" → x.role = userBodyAdmin.role)) :=
  ⟨rfl, ⟨by decide, rfl, by decide⟩,
   c4_any_requester_can_set_role st bob alice "u3" userBodyAdmin carol
     rfl (by decide) rfl (by decide)⟩

/-! ### C5 -/

/-- C5: creating a task whose `assignedTo` matches no user fails with 400
(`Assigned user not found`) and leaves the task collection unchanged. -/
theorem c5_create_unknown_assignee_rejected (s : State) (u : User)
    (b : TaskBody) (files : List Document) (nid : String) (now : Nat)
    (hb : taskBodyValid b = true)
    (hno : userExists s b.assignedTo = false) :
    (createTask s u b files nid now).1 = Resp.badRequest
    ∧ (createTask s u b files nid now).2.tasks = s.tasks := by
  have hfu : findUser s b.assignedTo = none := by
    cases h : findUser s b.assignedTo with
    | none => rfl
    | some x => rw [userExists, h] at hno; simp at hno
  constructor <;>
    simp [createTask, hb, findUser_writeUploads, writeUploads_tasks, hfu]

/-- C5 witness: a valid body whose assignee id `u9` exists in no user
record. -/
theorem c5_create_unknown_assignee_rejected_witness :
    taskBodyValid bodyGhost = true ∧ userExists st bodyGhost.assignedTo = false
    ∧ (createTask st alice bodyGhost [] "t9" 7).1 = Resp.badRequest
    ∧ (createTask st alice bodyGhost [] "t9" 7).2.tasks = st.tasks :=
  ⟨rfl, by decide,
   c5_create_unknown_assignee_rejected st alice bodyGhost [] "t9" 7
     rfl (by decide)⟩

/-! ### C8 -/

/-- C8: deleting an existing user removes exactly that user record — every
surviving record was there before and no record with the deleted id
survives, records with other ids all survive — and the task collection and
the content store are untouched. -/
theorem c8_delete_user_no_cascade (s : State) (r : User) (uid : String)
    (target : User)
    (hfind : findUser s uid = some target) :
    (deleteUser s r uid).1 = Resp.ok ()
    ∧ (deleteUser s r uid).2.tasks = s.tasks
    ∧ (deleteUser s r uid).2.files = s.files
    ∧ (∀ x ∈ (deleteUser s r uid).2.users, x ∈ s.users ∧ x.id ≠ uid)
    ∧ (∀ x ∈ s.users, x.id ≠ uid → x ∈ (deleteUser s r uid).2.users) := by
  refine ⟨?_, ?_, ?_, ?_, ?_⟩ <;>
    simp [deleteUser, hfind, List.mem_filter] <;> tauto

/-- C8 witness: deleting `bob` leaves `task1` (assigned to `bob`) in place
with its dangling reference. -/
theorem c8_delete_user_no_cascade_witness :
    findUser st "u2" = some bob
    ∧ ((deleteUser st alice "u2").1 = Resp.ok ()
      ∧ (deleteUser st alice "u2").2.tasks = st.tasks
      ∧ (deleteUser st alice "u2").2.files = st.files
      ∧ (∀ x ∈ (deleteUser st alice "u2").2.users, x ∈ st.users ∧ x.id ≠ "u2")
      ∧ (∀ x ∈ st.users, x.id ≠ "u2" → x ∈ (deleteUser st alice "u2").2.users)) :=
  ⟨rfl, c8_delete_user_no_cascade st alice "u2" bob rfl⟩

/-! ### C9 -/

/-- C9: with every required field present and an existing assignee, the
created task is stored (appended to the collection) and defaults to status
`pending` and priority `medium` when those fields are absent; a request
missing any required field fails with 400 and stores nothing. -/
theorem c9_create_validation_and_defaults (s : State) (u : User)
    (b : TaskBody) (files : List Document) (nid : String) (now : Nat) :
    (taskBodyValid b = false →
      (createTask s u b files nid now).1 = Resp.badRequest
      ∧ (createTask s u b files nid now).2.tasks = s.tasks)
    ∧ (taskBodyValid b = true → userExists s b.assignedTo = true →
      ∃ task, (createTask s u b files nid now).1 = Resp.ok task
        ∧ (createTask s u b files nid now).2.tasks = s.tasks ++ [task]
        ∧ (b.status = "" → task.status = "pending")
        ∧ (b.priority = "" → task.priority = "medium")
        ∧ (b.status ≠ "" → task.status = b.status)
        ∧ (b.priority ≠ "" → task.priority = b.priority)) := by
  constructor
  · intro hv
    constructor <;> simp [createTask, hv, writeUploads_tasks]
  · intro hv hex
    cases hfu : findUser s b.assignedTo with
    | none => rw [userExists, hfu] at hex; simp at hex
    | some a =>
      refine ⟨Task.mk nid b.title b.description
          (if b.status == "" then "pending" else b.status)
          (if b.priority == "" then "medium" else b.priority)
          b.dueDate b.assignedTo u.id files now,
        ?_, ?_, ?_, ?_, ?_, ?_⟩
      · simp [createTask, hv, findUser_writeUploads, hfu]
      · simp [createTask, hv, findUser_writeUploads, hfu, writeUploads_tasks]
      · intro h; simp [h]
      · intro h; simp [h]
      · intro h; simp [h]
      · intro h; simp [h]

/-- C9 witness: `bodyDefaults` passes validation, is assigned to the
existing user `u2`, and omits status and priority — the stored task carries
`pending` and `medium`; `bodyNoTitle` (title missing) is refused with the
task collection unchanged. -/
theorem c9_create_validation_and_defaults_witness :
    taskBodyValid bodyDefaults = true
    ∧ userExists st bodyDefaults.assignedTo = true
    ∧ bodyDefaults.status = "" ∧ bodyDefaults.priority = ""
    ∧ (∃ task, (createTask st alice bodyDefaults [] "t9" 7).1 = Resp.ok task
        ∧ (createTask st alice bodyDefaults [] "t9" 7).2.tasks =
            st.tasks ++ [task]
        ∧ task.status = "pending" ∧ task.priority = "medium")
    ∧ taskBodyValid bodyNoTitle = false
    ∧ (createTask st alice bodyNoTitle [] "t8" 7).1 = Resp.badRequest
    ∧ (createTask st alice bodyNoTitle [] "t8" 7).2.tasks = st.tasks := by
  refine ⟨rfl, by decide, rfl, rfl, ?_, rfl, ?_, ?_⟩
  · obtain ⟨task, h1, h2, h3, h4, _, _⟩ :=
      (c9_create_validation_and_defaults st alice bodyDefaults [] "t9" 7).2
        rfl (by decide)
    exact ⟨task, h1, h2, h3 rfl, h4 rfl⟩
  · exact ((c9_create_validation_and_defaults st alice bodyNoTitle []
      "t8" 7).1 rfl).1
  · exact ((c9_create_validation_and_defaults st alice bodyNoTitle []
      "t8" 7).1 rfl).2

/-! ### C6 -/

/-- Membership after the file-deletion loop: a path survives exactly when it
was there and belongs to none of the removed attachments. -/
theorem mem_removeFiles {p : String} (fs : List String)
    (docs : List Document) :
    p ∈ removeFiles fs docs ↔ p ∈ fs ∧ ∀ d ∈ docs, p ≠ d.path := by
  induction docs generalizing fs with
  | nil => simp [removeFiles]
  | cons d ds ih =>
    have hstep : removeFiles fs (d :: ds) =
        removeFiles (removePath fs d.path) ds := rfl
    rw [hstep, ih]
    simp only [removePath, List.mem_filter, List.mem_cons]
    constructor
    · rintro ⟨⟨hmem, hne⟩, hall⟩
      refine ⟨hmem, ?_⟩
      rintro e (rfl | he)
      · simpa using hne
      · exact hall e he
    · rintro ⟨hmem, hall⟩
      exact ⟨⟨hmem, by simpa using hall d (Or.inl rfl)⟩,
        fun e he => hall e (Or.inr he)⟩

/-- C6: deleting an accessible task succeeds, a subsequent fetch of the
task answers NotFound, and no attachment path of the deleted task remains
in the content store. -/
theorem c6_delete_task_cascades_files (s : State) (u : User) (tid : String)
    (task : Task)
    (hfind : findTask s tid = some task)
    (hcan : canAct u task = true) :
    (deleteTask s u tid).1 = Resp.ok ()
    ∧ getTaskById (deleteTask s u tid).2 u tid = Resp.notFound
    ∧ (∀ d ∈ task.documents, d.path ∉ (deleteTask s u tid).2.files) := by
  have hpos := canAct_split hcan
  have hdel : deleteTask s u tid =
      (Resp.ok (),
        { s with
          tasks := s.tasks.filter (fun t => t.id != tid)
          files := removeFiles s.files task.documents }) := by
    simp [deleteTask, hfind, hpos]
  refine ⟨by rw [hdel], ?_, ?_⟩
  · have hnone :
        findTask (deleteTask s u tid).2 tid = none := by
      rw [hdel]
      apply List.find?_eq_none.mpr
      intro x hx
      have := (List.mem_filter.mp hx).2
      simpa using this
    simp [getTaskById, hnone]
  · intro d hd
    rw [hdel]
    intro hmem
    exact ((mem_removeFiles s.files task.documents).mp hmem).2 d hd rfl

/-- C6 witness: `alice` (admin) deletes `task1`; both attachment files are
gone and the task no longer resolves. -/
theorem c6_delete_task_cascades_files_witness :
    findTask st "t1" = some task1 ∧ canAct alice task1 = true
    ∧ ((deleteTask st alice "t1").1 = Resp.ok ()
      ∧ getTaskById (deleteTask st alice "t1").2 alice "t1" = Resp.notFound
      ∧ (∀ d ∈ task1.documents, d.path ∉ (deleteTask st alice "t1").2.files)) :=
  ⟨rfl, rfl, c6_delete_task_cascades_files st alice "t1" task1 rfl rfl⟩

/-! ### C3 -/

/-- After a keyed in-place update of the task collection, every element is
either the updated record or an untouched old record. -/
theorem mem_map_update {tasks : List Task} {task' : Task} {tid : String}
    {t : Task}
    (ht : t ∈ tasks.map (fun x => if x.id == tid then task' else x)) :
    t = task' ∨ t ∈ tasks := by
  simp only [List.mem_map] at ht
  obtain ⟨a, ha, hax⟩ := ht
  by_cases hc : a.id = tid
  · left; rw [← hax]; simp [hc]
  · right; rw [← hax]; simp only [show (a.id == tid) = false by simp [hc],
      Bool.false_eq_true, if_false]; exact ha

/-- C3: a successful update stores exactly the existing attachments followed
by the new ones, truncated to 3; and the ≤ 3 attachment invariant is
preserved by create (the upload middleware admits at most 3 files), update
and single-attachment delete. -/
theorem c3_attachment_cap (s : State) (u : User) (tid docId nid : String)
    (b : TaskBody) (files : List Document) (task : Task) (now : Nat)
    (hfiles : files.length ≤ 3)
    (hinv : ∀ t ∈ s.tasks, t.documents.length ≤ 3)
    (hfind : findTask s tid = some task) :
    (taskBodyValid b = true → canAct u task = true →
        userExists s b.assignedTo = true →
      ∃ task', (updateTask s u tid b files).1 = Resp.ok task'
        ∧ task'.documents = (task.documents ++ files).take 3)
    ∧ (∀ t ∈ (createTask s u b files nid now).2.tasks,
        t.documents.length ≤ 3)
    ∧ (∀ t ∈ (updateTask s u tid b files).2.tasks,
        t.documents.length ≤ 3)
    ∧ (∀ t ∈ (deleteDocument s u tid docId).2.tasks,
        t.documents.length ≤ 3) := by
  refine ⟨?_, ?_, ?_, ?_⟩
  · intro hv hcan hex
    have hpos := canAct_split hcan
    cases hfu : findUser s b.assignedTo with
    | none => rw [userExists, hfu] at hex; simp at hex
    | some a =>
      refine ⟨Task.mk task.id b.title b.description b.status b.priority
          b.dueDate b.assignedTo task.createdBy
          ((task.documents ++ files).take 3) task.createdAt, ?_, rfl⟩
      simp [updateTask, hv, findTask_writeUploads, hfind, hpos,
        findUser_writeUploads, hfu]
  · intro t ht
    cases hv : taskBodyValid b with
    | false =>
      rw [show (createTask s u b files nid now).2.tasks = s.tasks by
        simp [createTask, hv, writeUploads_tasks]] at ht
      exact hinv t ht
    | true =>
      cases hfu : findUser s b.assignedTo with
      | none =>
        rw [show (createTask s u b files nid now).2.tasks = s.tasks by
          simp [createTask, hv, findUser_writeUploads, hfu,
            writeUploads_tasks]] at ht
        exact hinv t ht
      | some a =>
        rw [show (createTask s u b files nid now).2.tasks =
            s.tasks ++ [Task.mk nid b.title b.description
              (if b.status == "" then "pending" else b.status)
              (if b.priority == "" then "medium" else b.priority)
              b.dueDate b.assignedTo u.id files now] by
          simp [createTask, hv, findUser_writeUploads, hfu,
            writeUploads_tasks]] at ht
        rcases List.mem_append.mp ht with h | h
        · exact hinv t h
        · rw [List.mem_singleton.mp h]; exact hfiles
  · intro t ht
    cases hv : taskBodyValid b with
    | false =>
      rw [show (updateTask s u tid b files).2.tasks = s.tasks by
        simp [updateTask, hv, writeUploads_tasks]] at ht
      exact hinv t ht
    | true =>
      by_cases hg : ¬task.assignedTo = u.id ∧ ¬u.role = "admin"
      · rw [show (updateTask s u tid b files).2.tasks = s.tasks by
          simp [updateTask, hv, findTask_writeUploads, hfind, hg,
            writeUploads_tasks]] at ht
        exact hinv t ht
      · cases hfu : findUser s b.assignedTo with
        | none =>
          rw [show (updateTask s u tid b files).2.tasks = s.tasks by
            simp [updateTask, hv, findTask_writeUploads, hfind, hg,
              findUser_writeUploads, hfu, writeUploads_tasks]] at ht
          exact hinv t ht
        | some a =>
          rw [show (updateTask s u tid b files).2.tasks =
              s.tasks.map (fun x => if x.id == tid then
                Task.mk task.id b.title b.description b.status b.priority
                  b.dueDate b.assignedTo task.createdBy
                  ((task.documents ++ files).take 3) task.createdAt
                else x) by
            simp [updateTask, hv, findTask_writeUploads, hfind, hg,
              findUser_writeUploads, hfu, writeUploads_tasks]] at ht
          rcases mem_map_update ht with h | h
          · rw [h]
            exact List.length_take_le 3 (task.documents ++ files)
          · exact hinv t h
  · intro t ht
    by_cases hg : ¬task.assignedTo = u.id ∧ ¬u.role = "admin"
    · rw [show (deleteDocument s u tid docId).2.tasks = s.tasks by
        simp [deleteDocument, hfind, hg]] at ht
      exact hinv t ht
    · cases hfd : findDoc task docId with
      | none =>
        rw [show (deleteDocument s u tid docId).2.tasks = s.tasks by
          simp [deleteDocument, hfind, hg, hfd]] at ht
        exact hinv t ht
      | some doc =>
        rw [show (deleteDocument s u tid docId).2.tasks =
            s.tasks.map (fun x => if x.id == tid then
              { task with documents :=
                  task.documents.filter (fun d => d.docId != docId) }
              else x) by
          simp [deleteDocument, hfind, hg, hfd]] at ht
        rcases mem_map_update ht with h | h
        · rw [h]
          exact le_trans (List.length_filter_le _ task.documents)
            (hinv task (List.mem_of_find?_eq_some hfind))
        · exact hinv t h

/-- C3 witness: updating `task1` (two attachments) while uploading `docC`
keeps all three — `[docA, docB, docC]` — and every store the sample
operations produce respects the cap. -/
theorem c3_attachment_cap_witness :
    ([docC].length ≤ 3 ∧ (∀ t ∈ st.tasks, t.documents.length ≤ 3)
      ∧ findTask st "t1" = some task1)
    ∧ ((taskBodyValid body1 = true → canAct bob task1 = true →
        userExists st body1.assignedTo = true →
      ∃ task', (updateTask st bob "t1" body1 [docC]).1 = Resp.ok task'
        ∧ task'.documents = (task1.documents ++ [docC]).take 3)
    ∧ (∀ t ∈ (createTask st bob body1 [docC] "t9" 7).2.tasks,
        t.documents.length ≤ 3)
    ∧ (∀ t ∈ (updateTask st bob "t1" body1 [docC]).2.tasks,
        t.documents.length ≤ 3)
    ∧ (∀ t ∈ (deleteDocument st bob "t1" "d1").2.tasks,
        t.documents.length ≤ 3)) :=
  ⟨⟨by decide, by decide, rfl⟩,
   c3_attachment_cap st bob "t1" "d1" "t9" body1 [docC] task1 7
     (by decide) (by decide) rfl⟩

/-! ### C7 -/

/-- If a keyed lookup finds a record and the replacement keeps its key, the
lookup after the keyed in-place update returns the replacement. -/
theorem find?_map_update {l : List Task} {tid : String} {task task' : Task}
    (h : l.find? (fun t => t.id == tid) = some task)
    (hid : task'.id = task.id) :
    (l.map (fun t => if t.id == tid then task' else t)).find?
      (fun t => t.id == tid) = some task' := by
  induction l with
  | nil => simp at h
  | cons a as ih =>
    by_cases hc : a.id = tid
    · rw [List.find?_cons_of_pos _ (by simp [hc])] at h
      obtain rfl : a = task := Option.some.inj h
      simp only [List.map_cons, show (a.id == tid) = true by simp [hc],
        if_true]
      exact List.find?_cons_of_pos _ (by simp [hid, hc])
    · rw [List.find?_cons_of_neg _ (by simp [hc])] at h
      simp only [List.map_cons, show (a.id == tid) = false by simp [hc],
        Bool.false_eq_true, if_false]
      rw [List.find?_cons_of_neg _ (by simp [hc])]
      exact ih h

/-- Filtering out an id that occurs nowhere in the list is the identity. -/
theorem filter_docId_of_not_mem {docs : List Document} {did : String}
    (h : did ∉ docs.map (fun d => d.docId)) :
    docs.filter (fun d => d.docId != did) = docs := by
  induction docs with
  | nil => rfl
  | cons a as ih =>
    simp only [List.map_cons, List.mem_cons] at h
    push_neg at h
    obtain ⟨h1, h2⟩ := h
    have h1' : ¬a.docId = did := fun hh => h1 hh.symm
    simp [List.filter_cons, h1', ih h2]

/-- With pairwise-distinct attachment ids, removing a found attachment
shrinks the list by exactly one entry. -/
theorem filter_docId_length {docs : List Document} {did : String}
    {doc : Document}
    (hn : (docs.map (fun d => d.docId)).Nodup)
    (hf : docs.find? (fun d => d.docId == did) = some doc) :
    (docs.filter (fun d => d.docId != did)).length + 1 = docs.length := by
  induction docs with
  | nil => simp at hf
  | cons a as ih =>
    simp only [List.map_cons, List.nodup_cons] at hn
    obtain ⟨hna, hnas⟩ := hn
    by_cases hc : a.docId = did
    · have hnot : did ∉ as.map (fun d => d.docId) := by rw [← hc]; exact hna
      simp [List.filter_cons, hc, filter_docId_of_not_mem hnot]
    · rw [List.find?_cons_of_neg _ (by simp [hc])] at hf
      have := ih hnas hf
      simp only [List.filter_cons, show (a.docId != did) = true by simp [hc],
        if_true, List.length_cons]
      omega

/-- C7: deleting an attachment by id from an accessible task fails with
NotFound when no attachment carries that id; otherwise it removes exactly
that metadata entry and its stored file, leaving every other attachment,
every other task field, every other task, and every other stored file in
place. Attachment ids are pairwise distinct (the storage layer assigns
fresh subdocument ids). -/
theorem c7_delete_attachment_exact (s : State) (u : User)
    (tid docId : String) (task : Task)
    (hfind : findTask s tid = some task)
    (hcan : canAct u task = true)
    (hnodup : (task.documents.map (fun d => d.docId)).Nodup) :
    (findDoc task docId = none →
      deleteDocument s u tid docId = (Resp.notFound, s))
    ∧ (∀ doc, findDoc task docId = some doc →
        (deleteDocument s u tid docId).1 = Resp.ok ()
        ∧ doc.path ∉ (deleteDocument s u tid docId).2.files
        ∧ (∀ p ∈ s.files, p ≠ doc.path →
            p ∈ (deleteDocument s u tid docId).2.files)
        ∧ (∀ t ∈ s.tasks, t.id ≠ tid →
            t ∈ (deleteDocument s u tid docId).2.tasks)
        ∧ (deleteDocument s u tid docId).2.users = s.users
        ∧ ∃ task',
            findTask (deleteDocument s u tid docId).2 tid = some task'
            ∧ task'.title = task.title
            ∧ task'.description = task.description
            ∧ task'.status = task.status ∧ task'.priority = task.priority
            ∧ task'.dueDate = task.dueDate
            ∧ task'.assignedTo = task.assignedTo
            ∧ task'.createdBy = task.createdBy
            ∧ doc ∉ task'.documents
            ∧ (∀ d ∈ task.documents, d.docId ≠ docId → d ∈ task'.documents)
            ∧ (∀ d ∈ task'.documents, d ∈ task.documents)
            ∧ task'.documents.length + 1 = task.documents.length) := by
  have hpos := canAct_split hcan
  constructor
  · intro hfd
    simp [deleteDocument, hfind, hpos, hfd]
  · intro doc hfd
    have hkey : deleteDocument s u tid docId =
        (Resp.ok (), { s with
          tasks := s.tasks.map (fun x => if x.id == tid then
            { task with documents :=
                task.documents.filter (fun d => d.docId != docId) } else x)
          files := removePath s.files doc.path }) := by
      simp [deleteDocument, hfind, hpos, hfd]
    rw [hkey]
    have hfd' : task.documents.find? (fun d => d.docId == docId) = some doc :=
      hfd
    have hpred := List.find?_some hfd'
    refine ⟨rfl, ?_, ?_, ?_, rfl, ?_⟩
    · simp [removePath, List.mem_filter]
    · intro p hp hne
      simp [removePath, List.mem_filter, hp, hne]
    · intro t ht hne
      refine List.mem_map.mpr ⟨t, ht, ?_⟩
      simp [hne]
    · refine ⟨{ task with documents :=
          task.documents.filter (fun d => d.docId != docId) },
        find?_map_update hfind rfl,
        rfl, rfl, rfl, rfl, rfl, rfl, rfl, ?_, ?_, ?_, ?_⟩
      · intro hmem
        have h2 := (List.mem_filter.mp hmem).2
        rw [bne, hpred] at h2
        simp at h2
      · intro d hd hne
        exact List.mem_filter.mpr ⟨hd, by simp [hne]⟩
      · intro d hd
        exact (List.mem_filter.mp hd).1
      · exact filter_docId_length hnodup hfd

/-- C7 witness: `bob` (the assignee) deletes attachment `d1` of `task1`;
`docB` and the rest of the task survive untouched. -/
theorem c7_delete_attachment_exact_witness :
    (findTask st "t1" = some task1 ∧ canAct bob task1 = true
      ∧ (task1.documents.map (fun d => d.docId)).Nodup)
    ∧ ((findDoc task1 "d1" = none →
        deleteDocument st bob "t1" "d1" = (Resp.notFound, st))
    ∧ (∀ doc, findDoc task1 "d1" = some doc →
        (deleteDocument st bob "t1" "d1").1 = Resp.ok ()
        ∧ doc.path ∉ (deleteDocument st bob "t1" "d1").2.files
        ∧ (∀ p ∈ st.files, p ≠ doc.path →
            p ∈ (deleteDocument st bob "t1" "d1").2.files)
        ∧ (∀ t ∈ st.tasks, t.id ≠ "t1" →
            t ∈ (deleteDocument st bob "t1" "d1").2.tasks)
        ∧ (deleteDocument st bob "t1" "d1").2.users = st.users
        ∧ ∃ task',
            findTask (deleteDocument st bob "t1" "d1").2 "t1" = some task'
            ∧ task'.title = task1.title
            ∧ task'.description = task1.description
            ∧ task'.status = task1.status ∧ task'.priority = task1.priority
            ∧ task'.dueDate = task1.dueDate
            ∧ task'.assignedTo = task1.assignedTo
            ∧ task'.createdBy = task1.createdBy
            ∧ doc ∉ task'.documents
            ∧ (∀ d ∈ task1.documents, d.docId ≠ "d1" → d ∈ task'.documents)
            ∧ (∀ d ∈ task'.documents, d ∈ task1.documents)
            ∧ task'.documents.length + 1 = task1.documents.length)) :=
  ⟨⟨rfl, rfl, by decide⟩,
   c7_delete_attachment_exact st bob "t1" "d1" task1 rfl rfl (by decide)⟩

/-! ### C10 -/

/-- Keyed user lookup, observed through `stripPassword`, is determined by
the password-stripped view of the store: two user lists with the same
stripped view answer every lookup identically (after stripping). -/
theorem find?_strip_congr {l1 l2 : List User}
    (h : l1.map stripPassword = l2.map stripPassword) (uid : String) :
    Option.map stripPassword (l1.find? (fun x => x.id == uid)) =
    Option.map stripPassword (l2.find? (fun x => x.id == uid)) := by
  induction l1 generalizing l2 with
  | nil =>
    cases l2 with
    | nil => rfl
    | cons b bs => simp at h
  | cons a as ih =>
    cases l2 with
    | nil => simp at h
    | cons b bs =>
      simp only [List.map_cons, List.cons.injEq] at h
      obtain ⟨hab, hrest⟩ := h
      have hid : a.id = b.id := congrArg PublicUser.id hab
      by_cases hc : a.id = uid
      · rw [List.find?_cons_of_pos _ (by simp [hc]),
          List.find?_cons_of_pos _ (by simp [← hid, hc])]
        simp [hab]
      · rw [List.find?_cons_of_neg _ (by simp [hc]),
          List.find?_cons_of_neg _ (by simp [← hid, hc])]
        exact ih hrest

/-- C10: the list-users and get-user-by-id responses never depend on
password fields — two stores whose users agree on everything except
passwords (same password-stripped views) produce identical responses, and
the responses are built only from password-stripped records. -/
theorem c10_password_not_observable (s1 s2 : State)
    (h : s1.users.map stripPassword = s2.users.map stripPassword) :
    getUsers s1 = getUsers s2
    ∧ ∀ uid, getUserById s1 uid = getUserById s2 uid := by
  constructor
  · simp only [getUsers, h]
  · intro uid
    have hfind := find?_strip_congr h uid
    have h1 : getUserById s1 uid =
        match Option.map stripPassword (findUser s1 uid) with
        | none => Resp.notFound
        | some p => Resp.ok p := by
      cases hf : findUser s1 uid <;> simp [getUserById, hf]
    have h2 : getUserById s2 uid =
        match Option.map stripPassword (findUser s2 uid) with
        | none => Resp.notFound
        | some p => Resp.ok p := by
      cases hf : findUser s2 uid <;> simp [getUserById, hf]
    rw [h1, h2]
    show (match Option.map stripPassword (s1.users.find? (fun x => x.id == uid))
        with
      | none => Resp.notFound
      | some p => Resp.ok p) =
      (match Option.map stripPassword (s2.users.find? (fun x => x.id == uid))
        with
      | none => Resp.notFound
      | some p => Resp.ok p)
    rw [hfind]

/-- The sample store with every password hash replaced. -/
def stAlt : State :=
  { st with users :=
      [{ alice with password := "zz1" }, { bob with password := "zz2" },
       { carol with password := "zz3" }] }

/-- C10 witness: `st` and `stAlt` differ only in password hashes and are
indistinguishable through the user-listing and user-fetch endpoints. -/
theorem c10_password_not_observable_witness :
    st.users.map stripPassword = stAlt.users.map stripPassword
    ∧ getUsers st = getUsers stAlt
    ∧ getUserById st "u1" = getUserById stAlt "u1" :=
  ⟨by decide, (c10_password_not_observable st stAlt (by decide)).1,
   (c10_password_not_observable st stAlt (by decide)).2 "u1"⟩

end TMS
